import Mathlib

set_option maxRecDepth 100000

/-!
Verification of the TinyML OCPP local controller relay core.

Shallow embedding of `arduino/nicla_vision_ocpp_gateway/nicla_vision_ocpp_gateway.ino`
(the manual-TCP gateway variant; it is the code the frozen claims cite).
Byte strings (`Arduino String` holding raw chars) are modelled as `List Nat`
with every entry reduced mod 256 exactly where the code casts through
`uint8_t`; times (`millis()`) are `Nat`; network writes are returned as
explicit output lists instead of `client.print` side effects.
-/

namespace NiclaGateway

/-- Source line 33: `MAX_WALLBOX_CLIENTS = 5`. -/
def MAX_WALLBOX_CLIENTS : Nat := 5

/-- Source line 40: the fixed WebSocket handshake GUID. -/
def WS_GUID : String := "258EAFA5-E914-47DA-95CA-C5AB0DC85B11"

/-- The header fields and payload the decoder at lines 429-476 extracts from
one complete frame: FIN flag, opcode, MASK flag and the unmasked payload. -/
structure WSFrame where
  fin : Bool
  opcode : Nat
  masked : Bool
  payload : List Nat
deriving Repr, DecidableEq

/-- Lines 461-473 of `decodeWebSocketFrame`: the completeness check
`buffer.length() < pos + payloadLen` (line 462, `rest` here being the bytes
after the length field and mask key, so the check is
`rest.length < payloadLen`), payload extraction with
`byte ^= mask[i % 4]` when masked (lines 465-470; each read is an
`(uint8_t)` char, hence the mod 256), and the removal of the consumed frame
`buffer = buffer.substring(pos + payloadLen)` (line 473).  `none` is the
`return ""` that leaves the buffer untouched. -/
def extractBody (fin : Bool) (opcode : Nat) (masked : Bool) (payloadLen : Nat)
    (mask rest : List Nat) : Option (WSFrame × List Nat) :=
  if rest.length < payloadLen then none
  else
    some (⟨fin, opcode, masked,
      (List.range payloadLen).map fun i =>
        if masked then (rest.getD i 0 % 256) ^^^ mask.getD (i % 4) 0
        else rest.getD i 0 % 256⟩,
      rest.drop payloadLen)

/-- Lines 452-459 of `decodeWebSocketFrame`: when the MASK bit is set, a
4-byte masking key must follow the length field (`buffer.length() < pos + 4`
returns `""`, line 454); the key bytes are read through `uint8_t` (mod 256)
and `pos` advances past them. -/
def finishFrame (fin : Bool) (opcode : Nat) (masked : Bool) (payloadLen : Nat)
    (rest : List Nat) : Option (WSFrame × List Nat) :=
  if masked then
    match rest with
    | k0 :: k1 :: k2 :: k3 :: rest2 =>
        extractBody fin opcode true payloadLen [k0 % 256, k1 % 256, k2 % 256, k3 % 256] rest2
    | _ => none
  else extractBody fin opcode false payloadLen [] rest

/-- Header parse of `decodeWebSocketFrame` (lines 429-449): fewer than two
bytes is `return ""` (line 430); byte 0 holds FIN (`& 0x80`) and the opcode
(`& 0x0F`), byte 1 the MASK bit (`& 0x80`) and the 7-bit length (`& 0x7F`);
a 7-bit length of 126 demands the 2-byte big-endian extended length
`((uint8_t)buffer[2] << 8) | (uint8_t)buffer[3]` (lines 443-446, fewer than
4 bytes is `return ""`), and 127 is rejected outright (lines 447-449).
Every byte is read as an `(uint8_t)` char, hence the mod 256.  `none` stands
for every `return ""` path, all of which leave the buffer unchanged;
`some (f, rest)` is a completely parsed frame with the remaining buffer. -/
def parseFrame : List Nat → Option (WSFrame × List Nat)
  | b1 :: b2 :: rest =>
    let byte1 := b1 % 256
    let byte2 := b2 % 256
    let fin : Bool := byte1 &&& 0x80 != 0
    let opcode : Nat := byte1 &&& 0x0F
    let masked : Bool := byte2 &&& 0x80 != 0
    let payloadLen7 : Nat := byte2 &&& 0x7F
    if payloadLen7 = 126 then
      match rest with
      | hi :: lo :: rest2 =>
          finishFrame fin opcode masked (((hi % 256) <<< 8) ||| (lo % 256)) rest2
      | _ => none
    else if payloadLen7 = 127 then none
    else finishFrame fin opcode masked payloadLen7 rest
  | _ => none

/-- Function `decodeWebSocketFrame` (lines 429-476) as the caller observes it: the
returned message (line 475 keeps the payload only for a FIN TEXT frame,
everything else yields `""`) together with the new buffer (unchanged on any
early `return ""`, otherwise the bytes after the consumed frame). -/
def decodeWebSocketFrame (buffer : List Nat) : List Nat × List Nat :=
  match parseFrame buffer with
  | none => ([], buffer)
  | some (f, rest) => (if f.opcode = 1 ∧ f.fin then f.payload else [], rest)

/-- Function `encodeWebSocketFrame` (lines 481-496): byte 0x81 (FIN + TEXT), then a
7-bit length for payloads under 126 or `126, (char)(len >> 8),
(char)(len & 0xFF)` otherwise, then the payload verbatim.  The MASK bit is
never set and no mask key is ever emitted. -/
def encodeWebSocketFrame (payload : List Nat) : List Nat :=
  if payload.length < 126 then
    0x81 :: payload.length :: payload
  else
    0x81 :: 126 :: ((payload.length >>> 8) % 256) :: (payload.length &&& 0xFF) :: payload

/-- Wire bytes of one complete frame in the subset `decodeWebSocketFrame`
accepts: first byte `b1` (FIN/opcode), a length byte carrying the MASK bit
and the 7-bit length of `body` (the literal length below 126, else the
marker 126 followed by the 2-byte big-endian length), the 4-byte mask key
when masked, then `body` (the on-wire, still-masked payload bytes). -/
def serializeFrame (b1 : Nat) (mask : Option (Nat × Nat × Nat × Nat)) (body : List Nat) :
    List Nat :=
  let m := if mask.isSome then 128 else 0
  let lenBytes := if body.length < 126 then [m + body.length]
    else [m + 126, body.length / 256, body.length % 256]
  let maskBytes := match mask with
    | some (a, b, c, d) => [a, b, c, d]
    | none => []
  b1 :: (lenBytes ++ (maskBytes ++ body))

/-- The payload `decodeWebSocketFrame` extracts from a frame whose on-wire
body is `body`: the bytes themselves (as 8-bit chars) when unmasked, the
XOR with `mask[i % 4]` when masked. -/
def wirePayload (mask : Option (Nat × Nat × Nat × Nat)) (body : List Nat) : List Nat :=
  match mask with
  | none => body.map (· % 256)
  | some (k0, k1, k2, k3) =>
      (List.range body.length).map fun i =>
        (body.getD i 0 % 256) ^^^ ([k0 % 256, k1 % 256, k2 % 256, k3 % 256].getD (i % 4) 0)

/-- One slot of the `wallboxClients[MAX_WALLBOX_CLIENTS]` table (lines 66-72,
81).  The `WiFiClient` transport handle is left out: writes to it are
modelled as explicit outputs of the handlers; `lastActivity` is dropped
because no frozen claim mentions the idle timestamp. -/
structure WallboxConnection where
  active : Bool
  wsHandshakeDone : Bool
  buffer : List Nat
deriving Repr, DecidableEq

instance : Inhabited WallboxConnection := ⟨⟨false, false, []⟩⟩

/-- Slot read `wallboxClients[i]`; the table always has `MAX_WALLBOX_CLIENTS` entries,
so claims carry a length hypothesis and the default is never load-bearing. -/
def getClient (clients : List WallboxConnection) (i : Nat) : WallboxConnection :=
  clients.getD i default

/-- Loop body of `getFreeWallboxSlot` (lines 397-402): scan slots upward from `i`,
return the first index whose slot is not active, else -1. -/
def getFreeWallboxSlotGo : List WallboxConnection → Nat → Int
  | [], _ => -1
  | c :: rest, i => if c.active then getFreeWallboxSlotGo rest (i + 1) else (i : Int)

/-- Function `getFreeWallboxSlot()` (lines 397-402). -/
def getFreeWallboxSlot (clients : List WallboxConnection) : Int :=
  getFreeWallboxSlotGo clients 0

/-- Outcome of `acceptWallboxConnections`: a slot admission, or the
`newClient.stop()` rejection path. -/
inductive AdmitResult where
  | admitted (slot : Nat)
  | rejected
deriving Repr, DecidableEq

/-- Function `acceptWallboxConnections()` (lines 407-424), given that a new transport
connection is pending: with a free slot (`slot >= 0`) that slot is
initialized (`active = true`, `wsHandshakeDone = false`, empty buffer;
`lastActivity = millis()` dropped as above); otherwise `newClient.stop()`
closes the transport and the table is left untouched. -/
def acceptWallboxConnections (clients : List WallboxConnection) :
    List WallboxConnection × AdmitResult :=
  let slot := getFreeWallboxSlot clients
  if 0 ≤ slot then
    (clients.set slot.toNat ⟨true, false, []⟩, .admitted slot.toNat)
  else
    (clients, .rejected)

/-- The frame-relay tail of `handleWallboxClients` for one slot whose
handshake is done (lines 538-549): decode one frame from the slot's buffer;
if the message is nonempty and the backend is connected with its handshake
done, write the re-encoded frame to the backend.  Returns the updated slot,
the bytes written back to this wallbox client (lines 538-549 contain no
`client.print`, so this component is always empty) and the bytes written to
the backend. -/
def handleWallboxFrameStep (c : WallboxConnection)
    (backendConnected backendWsHandshakeDone : Bool) :
    WallboxConnection × List (List Nat) × List (List Nat) :=
  let dec := decodeWebSocketFrame c.buffer
  if 0 < dec.1.length then
    if backendConnected ∧ backendWsHandshakeDone then
      ({ c with buffer := dec.2 }, [], [encodeWebSocketFrame dec.1])
    else ({ c with buffer := dec.2 }, [], [])
  else ({ c with buffer := dec.2 }, [], [])

/-- The broadcast tail of `handleBackend` (lines 631-645): decode one message
from the backend buffer; if it is nonempty, re-encode it once and write it to
every slot `i < MAX_WALLBOX_CLIENTS` with `active && wsHandshakeDone`.
Returns the new backend buffer and the `(slot, bytes)` writes in loop
order. -/
def handleBackendForward (clients : List WallboxConnection) (backendBuffer : List Nat) :
    List Nat × List (Nat × List Nat) :=
  let dec := decodeWebSocketFrame backendBuffer
  if 0 < dec.1.length then
    (dec.2, (List.range MAX_WALLBOX_CLIENTS).filterMap fun i =>
      if (getClient clients i).active ∧ (getClient clients i).wsHandshakeDone then
        some (i, encodeWebSocketFrame dec.1)
      else none)
  else (dec.2, [])

/-- The backend-link connection state (lines 85, 88): `backendConnected` and
`lastBackendAttempt`. -/
structure BackendState where
  backendConnected : Bool
  lastBackendAttempt : Nat
deriving Repr, DecidableEq

/-- Function `connectBackend()` (lines 556-589).  Here `now` is `millis()` and `connectOk`
the environment's answer to `backendClient.connect`.  Returns the new state
and whether an actual connect attempt was made: connected → no-op; fewer
than 5000 ms since `lastBackendAttempt` → no-op; otherwise
`lastBackendAttempt = now` is recorded and the attempt happens, setting
`backendConnected` on success.  The success path also clears the handshake
flag/buffer and sends the client handshake; those are outside the backoff
claims. -/
def connectBackend (st : BackendState) (now : Nat) (connectOk : Bool) :
    BackendState × Bool :=
  if st.backendConnected then (st, false)
  else if now - st.lastBackendAttempt < 5000 then (st, false)
  else if connectOk then ({ backendConnected := true, lastBackendAttempt := now }, true)
  else ({ st with lastBackendAttempt := now }, true)

/-- The times at which a sequence of `connectBackend` requests (one per entry
of `ts`, each failing at the transport) performs an actual connect attempt. -/
def attemptTimes (st : BackendState) : List Nat → List Nat
  | [] => []
  | t :: ts =>
      let r := connectBackend st t false
      if r.2 then t :: attemptTimes r.1 ts else attemptTimes r.1 ts

/-- First index at which `pat` occurs as a contiguous subsequence
(`String::indexOf`), or `none` when absent. -/
def indexOfSeq (pat : List Char) : List Char → Option Nat
  | [] => if pat.isPrefixOf ([] : List Char) then some 0 else none
  | c :: rest =>
      if pat.isPrefixOf (c :: rest) then some 0
      else (indexOfSeq pat rest).map (· + 1)

/-- The guard at line 523: `buffer.indexOf("\r\n\r\n") > 0`. -/
def hasHeaderTerminator (buffer : String) : Bool :=
  match indexOfSeq ("\r\n\r\n".toList) buffer.toList with
  | some i => decide (0 < i)
  | none => false

/-- Lines 525-528: the fixed 101 response the gateway sends to every session,
with the hardcoded accept token. -/
def wsHandshakeResponse : String :=
  "HTTP/1.1 101 Switching Protocols\r\nUpgrade: websocket\r\nConnection: Upgrade\r\nSec-WebSocket-Accept: s3pPLMBiTxaQ9kYGzzhZRbK+xOo=\r\n\r\n"

/-- The handshake branch of `handleWallboxClients` (lines 522-535): once the
request buffer contains the header terminator, the fixed response is written
(the comment at line 524 concedes a real implementation would parse
`Sec-WebSocket-Key`); the response never depends on the request's key. -/
def handleWallboxHandshake (buffer : String) : Option String :=
  if hasHeaderTerminator buffer then some wsHandshakeResponse else none

/-- 32-bit left rotation on naturals below 2^32. -/
def rotl32 (n x : Nat) : Nat := ((x <<< n) ||| (x >>> (32 - n))) % 4294967296

/-- Modelled from the spec: the SHA-1 round function (the source has no SHA-1;
§4.2 mandates `base64(SHA-1(key + GUID))` for the accept token).  `~b` on a
32-bit word is `4294967295 - b`. -/
def sha1F (t b c d : Nat) : Nat :=
  if t < 20 then (b &&& c) ||| ((4294967295 - b) &&& d)
  else if t < 40 then b ^^^ c ^^^ d
  else if t < 60 then (b &&& c) ||| (b &&& d) ||| (c &&& d)
  else b ^^^ c ^^^ d

/-- Modelled from the spec: the SHA-1 round constants. -/
def sha1K (t : Nat) : Nat :=
  if t < 20 then 0x5A827999 else if t < 40 then 0x6ED9EBA1
  else if t < 60 then 0x8F1BBCDC else 0xCA62C1D6

/-- Big-endian 8-byte encoding of a 64-bit value. -/
def bytesBE8 (n : Nat) : List Nat :=
  [n >>> 56 % 256, n >>> 48 % 256, n >>> 40 % 256, n >>> 32 % 256,
   n >>> 24 % 256, n >>> 16 % 256, n >>> 8 % 256, n % 256]

/-- Big-endian 4-byte encoding of a 32-bit word. -/
def bytesBE4 (n : Nat) : List Nat := [n >>> 24 % 256, n >>> 16 % 256, n >>> 8 % 256, n % 256]

/-- Modelled from the spec: SHA-1 message padding (0x80, zeros, 64-bit
big-endian bit length, to a multiple of 64 bytes). -/
def sha1Pad (msg : List Nat) : List Nat :=
  msg ++ 0x80 :: List.replicate ((64 - (msg.length + 9) % 64) % 64) 0 ++ bytesBE8 (8 * msg.length)

/-- Big-endian 32-bit words of a byte sequence. -/
def toWords : List Nat → List Nat
  | b0 :: b1 :: b2 :: b3 :: rest => (((b0 * 256 + b1) * 256 + b2) * 256 + b3) :: toWords rest
  | _ => []

/-- Modelled from the spec: SHA-1 message-schedule expansion, appending `n`
further words `rotl1(w[t-3] xor w[t-8] xor w[t-14] xor w[t-16])`. -/
def sha1Expand : Nat → List Nat → List Nat
  | 0, ws => ws
  | n + 1, ws =>
      sha1Expand n (ws ++ [rotl32 1 (ws.getD (ws.length - 3) 0 ^^^ ws.getD (ws.length - 8) 0 ^^^
        ws.getD (ws.length - 14) 0 ^^^ ws.getD (ws.length - 16) 0)])

/-- Modelled from the spec: one SHA-1 round on the state `(a, b, c, d, e)`
with round index `t` and schedule word `w`. -/
def sha1Round : Nat × Nat × Nat × Nat × Nat → Nat × Nat → Nat × Nat × Nat × Nat × Nat
  | (a, b, c, d, e), (t, w) =>
      ((rotl32 5 a + sha1F t b c d + e + sha1K t + w) % 4294967296, a, rotl32 30 b, c, d)

/-- Modelled from the spec: one 64-byte SHA-1 block added into the hash
state. -/
def sha1Block (h : Nat × Nat × Nat × Nat × Nat) (block : List Nat) :
    Nat × Nat × Nat × Nat × Nat :=
  match h, (sha1Expand 64 (toWords block)).enum.foldl sha1Round h with
  | (h0, h1, h2, h3, h4), (a, b, c, d, e) =>
      ((h0 + a) % 4294967296, (h1 + b) % 4294967296, (h2 + c) % 4294967296,
        (h3 + d) % 4294967296, (h4 + e) % 4294967296)

/-- Fold `sha1Block` over `n` consecutive 64-byte blocks. -/
def sha1Process : Nat → List Nat → Nat × Nat × Nat × Nat × Nat → Nat × Nat × Nat × Nat × Nat
  | 0, _, h => h
  | n + 1, bytes, h => sha1Process n (bytes.drop 64) (sha1Block h (bytes.take 64))

/-- Modelled from the spec: the SHA-1 digest (20 bytes) of a byte sequence. -/
def sha1 (msg : List Nat) : List Nat :=
  match sha1Process ((sha1Pad msg).length / 64) (sha1Pad msg)
      (0x67452301, 0xEFCDAB89, 0x98BADCFE, 0x10325476, 0xC3D2E1F0) with
  | (a, b, c, d, e) => bytesBE4 a ++ bytesBE4 b ++ bytesBE4 c ++ bytesBE4 d ++ bytesBE4 e

/-- The standard base64 alphabet. -/
def base64Table : List Char :=
  "ABCDEFGHIJKLMNOPQRSTUVWXYZabcdefghijklmnopqrstuvwxyz0123456789+/".toList

/-- Character of a 6-bit group. -/
def base64Char (n : Nat) : Char := base64Table.getD n 'A'

/-- Modelled from the spec: RFC 4648 base64 of a byte sequence, with `=`
padding. -/
def base64Encode : List Nat → List Char
  | [] => []
  | [b0] => [base64Char (b0 >>> 2), base64Char ((b0 % 4) <<< 4), '=', '=']
  | [b0, b1] =>
      [base64Char (b0 >>> 2), base64Char (((b0 % 4) <<< 4) ||| (b1 >>> 4)),
       base64Char ((b1 % 16) <<< 2), '=']
  | b0 :: b1 :: b2 :: rest =>
      base64Char (b0 >>> 2) :: base64Char (((b0 % 4) <<< 4) ||| (b1 >>> 4)) ::
      base64Char (((b1 % 16) <<< 2) ||| (b2 >>> 6)) :: base64Char (b2 % 64) ::
      base64Encode rest

/-- ASCII bytes of a header value. -/
def toBytes (s : String) : List Nat := s.toList.map Char.toNat

/-- Modelled from the spec: the accept token `base64(SHA-1(key + WS_GUID))`
that §4.2 requires in the `Sec-WebSocket-Accept` header; the source instead
hardcodes the token for one sample key. -/
def computeAcceptToken (key : String) : String :=
  String.mk (base64Encode (sha1 (toBytes (key ++ WS_GUID))))

/-- A downstream upgrade request carrying the RFC 6455 sample key (the one
key for which the hardcoded response token is correct). -/
def sampleUpgradeRequest : String :=
  "GET /ocpp HTTP/1.1\r\nHost: gateway.local\r\nUpgrade: websocket\r\nConnection: Upgrade\r\nSec-WebSocket-Key: dGhlIHNhbXBsZSBub25jZQ==\r\nSec-WebSocket-Version: 13\r\n\r\n"

/-- A downstream upgrade request carrying a different, equally valid key,
for which RFC 6455 (and spec §4.2) demand a different accept token. -/
def otherKeyUpgradeRequest : String :=
  "GET /ocpp HTTP/1.1\r\nHost: gateway.local\r\nUpgrade: websocket\r\nConnection: Upgrade\r\nSec-WebSocket-Key: AAAAAAAAAAAAAAAAAAAAAA==\r\nSec-WebSocket-Version: 13\r\n\r\n"

/-- A five-slot table with sessions 0-2 `Open` (active, handshake done),
slot 3 free and slot 4 active but still in handshake. -/
def threeOpenClients : List WallboxConnection :=
  [⟨true, true, []⟩, ⟨true, true, []⟩, ⟨true, true, []⟩, ⟨false, false, []⟩, ⟨true, false, []⟩]

/-- A five-slot table with every slot occupied. -/
def fullClients : List WallboxConnection :=
  [⟨true, true, []⟩, ⟨true, true, []⟩, ⟨true, false, []⟩, ⟨true, true, []⟩, ⟨true, false, []⟩]

end NiclaGateway

namespace NiclaGateway

/-! Arithmetic and list helpers shared by the frame-codec theorems. -/

theorem land127_eq_mod (x : Nat) : x &&& 127 = x % 128 := by
  have h := Nat.and_pow_two_sub_one_eq_mod x 7
  norm_num at h
  exact h

theorem land255_eq_mod (x : Nat) : x &&& 255 = x % 256 := by
  have h := Nat.and_pow_two_sub_one_eq_mod x 8
  norm_num at h
  exact h

theorem land128_eq_zero : ∀ x < 256, (x &&& 128 = 0) ↔ x < 128 := by decide

theorem shiftLeft_lor_add (a b k : Nat) (hb : b < 2 ^ k) :
    (a <<< k) ||| b = a * 2 ^ k + b := by
  apply Nat.eq_of_testBit_eq
  intro i
  rw [Nat.testBit_lor, Nat.testBit_shiftLeft]
  rcases Nat.lt_or_ge i k with hik | hik
  · have hge : ¬ i ≥ k := by omega
    rw [show decide (i ≥ k) = false by simp [hge]]
    simp only [Bool.false_and, Bool.false_or]
    rw [Nat.testBit_to_div_mod, Nat.testBit_to_div_mod]
    have e0 : a * 2 ^ k = a * 2 ^ (k - i) * 2 ^ i := by
      rw [mul_assoc, ← pow_add]
      congr 2
      omega
    have e1 : (a * 2 ^ k + b) / 2 ^ i = b / 2 ^ i + a * 2 ^ (k - i) := by
      rw [e0, add_comm, Nat.add_mul_div_right _ _ (Nat.pos_pow_of_pos i (by norm_num))]
    rw [e1]
    obtain ⟨c, hc⟩ : 2 ∣ a * 2 ^ (k - i) := by
      apply Dvd.dvd.mul_left
      exact dvd_pow_self 2 (by omega)
    rw [hc]
    have e2 : (b / 2 ^ i + 2 * c) % 2 = b / 2 ^ i % 2 := by omega
    rw [e2]
  · have hbi : b.testBit i = false :=
      Nat.testBit_lt_two_pow (lt_of_lt_of_le hb (Nat.pow_le_pow_right (by norm_num) hik))
    rw [show decide (i ≥ k) = true by simp [hik]]
    simp only [Bool.true_and, hbi, Bool.or_false]
    rw [Nat.testBit_to_div_mod, Nat.testBit_to_div_mod]
    have e1 : (a * 2 ^ k + b) / 2 ^ i = a / 2 ^ (i - k) := by
      have hi : (2 : Nat) ^ i = 2 ^ k * 2 ^ (i - k) := by
        rw [← pow_add]
        congr 1
        omega
      rw [hi, ← Nat.div_div_eq_div_mul, mul_comm a (2 ^ k),
        Nat.mul_add_div (Nat.pos_pow_of_pos k (by norm_num)), Nat.div_eq_of_lt hb,
        Nat.add_zero]
    rw [e1]

theorem shiftLeft8_lor_add (a b : Nat) (hb : b < 256) : (a <<< 8) ||| b = a * 256 + b := by
  have h := shiftLeft_lor_add a b 8 (by norm_num [hb])
  norm_num at h
  exact h

theorem range_map_getD {β : Type} (l : List Nat) (f : Nat → β) :
    (List.range l.length).map (fun i => f (l.getD i 0)) = l.map f := by
  induction l with
  | nil => simp
  | cons a t ih =>
      rw [List.length_cons, List.range_succ_eq_map, List.map_cons]
      simp only [List.getD_cons_zero, List.map_map, List.map_cons]
      congr 1

/-! Workhorse lemmas: `parseFrame` on each complete-frame wire shape. -/

theorem parseFrame_lit_unmasked (b1 : Nat) (body tail : List Nat)
    (hb1 : b1 < 256) (hlen : body.length < 126) :
    parseFrame (b1 :: body.length :: (body ++ tail)) =
      some (⟨b1 &&& 128 != 0, b1 &&& 15, false, body.map (· % 256)⟩, tail) := by
  have hm1 : b1 % 256 = b1 := Nat.mod_eq_of_lt hb1
  have hm2 : body.length % 256 = body.length := Nat.mod_eq_of_lt (by omega)
  have h127 : body.length &&& 127 = body.length := by
    rw [land127_eq_mod]
    omega
  have h128 : body.length &&& 128 = 0 := (land128_eq_zero body.length (by omega)).mpr (by omega)
  have hmap : (List.range body.length).map (fun i => (body ++ tail).getD i 0 % 256)
      = body.map (· % 256) := by
    rw [← range_map_getD body (· % 256)]
    apply List.map_congr_left
    intro i hi
    rw [List.getD_append]
    exact List.mem_range.mp hi
  have hdrop : (body ++ tail).drop body.length = tail := List.drop_left body tail
  simp only [parseFrame, hm1, hm2, h127, h128]
  rw [if_neg (by omega), if_neg (by omega)]
  simp only [bne_self_eq_false, finishFrame, Bool.false_eq_true, if_false, extractBody]
  rw [if_neg (by simp only [List.length_append]; omega)]
  simp only [Bool.false_eq_true, if_false, hmap, hdrop]

theorem parseFrame_lit_masked (b1 k0 k1 k2 k3 : Nat) (body tail : List Nat)
    (hb1 : b1 < 256) (hlen : body.length < 126) :
    parseFrame (b1 :: (128 + body.length) :: k0 :: k1 :: k2 :: k3 :: (body ++ tail)) =
      some (⟨b1 &&& 128 != 0, b1 &&& 15, true,
        (List.range body.length).map fun i =>
          (body.getD i 0 % 256) ^^^ ([k0 % 256, k1 % 256, k2 % 256, k3 % 256].getD (i % 4) 0)⟩,
        tail) := by
  have hm1 : b1 % 256 = b1 := Nat.mod_eq_of_lt hb1
  have hm2 : (128 + body.length) % 256 = 128 + body.length := Nat.mod_eq_of_lt (by omega)
  have h127 : (128 + body.length) &&& 127 = body.length := by
    rw [land127_eq_mod]
    omega
  have h128 : ((128 + body.length) &&& 128 != 0) = true := by
    have h := (land128_eq_zero (128 + body.length) (by omega))
    simp only [bne_iff_ne, ne_eq]
    omega
  have hmap : (List.range body.length).map
        (fun i => ((body ++ tail).getD i 0 % 256) ^^^
          ([k0 % 256, k1 % 256, k2 % 256, k3 % 256].getD (i % 4) 0))
      = (List.range body.length).map
        (fun i => (body.getD i 0 % 256) ^^^
          ([k0 % 256, k1 % 256, k2 % 256, k3 % 256].getD (i % 4) 0)) := by
    apply List.map_congr_left
    intro i hi
    rw [List.getD_append]
    exact List.mem_range.mp hi
  have hdrop : (body ++ tail).drop body.length = tail := List.drop_left body tail
  simp only [parseFrame, hm1, hm2, h127, h128]
  rw [if_neg (by omega), if_neg (by omega)]
  simp only [if_true, finishFrame, extractBody]
  rw [if_neg (by simp only [List.length_append]; omega)]
  simp only [if_true, hmap, hdrop]

theorem parseFrame_ext_unmasked (b1 : Nat) (body tail : List Nat)
    (hb1 : b1 < 256) (hlen : body.length < 65536) :
    parseFrame (b1 :: 126 :: (body.length / 256) :: (body.length % 256) :: (body ++ tail)) =
      some (⟨b1 &&& 128 != 0, b1 &&& 15, false, body.map (· % 256)⟩, tail) := by
  have hm1 : b1 % 256 = b1 := Nat.mod_eq_of_lt hb1
  have hhi : body.length / 256 % 256 = body.length / 256 := Nat.mod_eq_of_lt (by omega)
  have hlo : body.length % 256 % 256 = body.length % 256 :=
    Nat.mod_eq_of_lt (Nat.mod_lt _ (by norm_num))
  have hrec : ((body.length / 256) <<< 8) ||| (body.length % 256) = body.length := by
    rw [shiftLeft8_lor_add _ _ (Nat.mod_lt _ (by norm_num))]
    omega
  have hmap : (List.range body.length).map (fun i => (body ++ tail).getD i 0 % 256)
      = body.map (· % 256) := by
    rw [← range_map_getD body (· % 256)]
    apply List.map_congr_left
    intro i hi
    rw [List.getD_append]
    exact List.mem_range.mp hi
  have hdrop : (body ++ tail).drop body.length = tail := List.drop_left body tail
  simp only [parseFrame, hm1]
  rw [if_pos (by decide : (126 % 256 &&& 127 : Nat) = 126)]
  simp only [hhi, hlo, hrec, finishFrame]
  rw [if_neg (by decide : ¬ ((126 % 256 &&& 128 : Nat) != 0) = true)]
  simp only [extractBody]
  rw [if_neg (by simp only [List.length_append]; omega)]
  simp only [Bool.false_eq_true, if_false, hmap, hdrop]

theorem parseFrame_ext_masked (b1 k0 k1 k2 k3 : Nat) (body tail : List Nat)
    (hb1 : b1 < 256) (hlen : body.length < 65536) :
    parseFrame (b1 :: 254 :: (body.length / 256) :: (body.length % 256) ::
        k0 :: k1 :: k2 :: k3 :: (body ++ tail)) =
      some (⟨b1 &&& 128 != 0, b1 &&& 15, true,
        (List.range body.length).map fun i =>
          (body.getD i 0 % 256) ^^^ ([k0 % 256, k1 % 256, k2 % 256, k3 % 256].getD (i % 4) 0)⟩,
        tail) := by
  have hm1 : b1 % 256 = b1 := Nat.mod_eq_of_lt hb1
  have hhi : body.length / 256 % 256 = body.length / 256 := Nat.mod_eq_of_lt (by omega)
  have hlo : body.length % 256 % 256 = body.length % 256 :=
    Nat.mod_eq_of_lt (Nat.mod_lt _ (by norm_num))
  have hrec : ((body.length / 256) <<< 8) ||| (body.length % 256) = body.length := by
    rw [shiftLeft8_lor_add _ _ (Nat.mod_lt _ (by norm_num))]
    omega
  have hmap : (List.range body.length).map
        (fun i => ((body ++ tail).getD i 0 % 256) ^^^
          ([k0 % 256, k1 % 256, k2 % 256, k3 % 256].getD (i % 4) 0))
      = (List.range body.length).map
        (fun i => (body.getD i 0 % 256) ^^^
          ([k0 % 256, k1 % 256, k2 % 256, k3 % 256].getD (i % 4) 0)) := by
    apply List.map_congr_left
    intro i hi
    rw [List.getD_append]
    exact List.mem_range.mp hi
  have hdrop : (body ++ tail).drop body.length = tail := List.drop_left body tail
  simp only [parseFrame, hm1]
  rw [if_pos (by decide : (254 % 256 &&& 127 : Nat) = 126)]
  simp only [hhi, hlo, hrec, finishFrame]
  rw [if_pos (by decide : ((254 % 256 &&& 128 : Nat) != 0) = true)]
  simp only [extractBody]
  rw [if_neg (by simp only [List.length_append]; omega)]
  simp only [if_true, hmap, hdrop]

/-! Branch-navigation helpers for `parseFrame`. -/

theorem extractBody_none (fin : Bool) (opcode : Nat) (masked : Bool) (payloadLen : Nat)
    (mask rest : List Nat) (h : rest.length < payloadLen) :
    extractBody fin opcode masked payloadLen mask rest = none := by
  simp [extractBody, h]

theorem finishFrame_unmasked_none (fin : Bool) (opcode payloadLen : Nat) (rest : List Nat)
    (h : rest.length < payloadLen) :
    finishFrame fin opcode false payloadLen rest = none := by
  simp [finishFrame, extractBody, h]

theorem finishFrame_masked_short (fin : Bool) (opcode payloadLen : Nat) (rest : List Nat)
    (h : rest.length < 4) :
    finishFrame fin opcode true payloadLen rest = none := by
  rcases rest with _ | ⟨a, _ | ⟨b, _ | ⟨c, _ | ⟨d, r⟩⟩⟩⟩
  · rfl
  · rfl
  · rfl
  · rfl
  · exfalso
    simp only [List.length_cons] at h
    omega

theorem finishFrame_masked_none (fin : Bool) (opcode payloadLen k0 k1 k2 k3 : Nat)
    (rest : List Nat) (h : rest.length < payloadLen) :
    finishFrame fin opcode true payloadLen (k0 :: k1 :: k2 :: k3 :: rest) = none := by
  simp [finishFrame, extractBody, h]

theorem parseFrame_lit_header (b1 b2 : Nat) (rest : List Nat)
    (h126 : ¬ b2 % 256 &&& 127 = 126) (h127 : ¬ b2 % 256 &&& 127 = 127) :
    parseFrame (b1 :: b2 :: rest) =
      finishFrame (b1 % 256 &&& 128 != 0) (b1 % 256 &&& 15) (b2 % 256 &&& 128 != 0)
        (b2 % 256 &&& 127) rest := by
  simp only [parseFrame]
  rw [if_neg h126, if_neg h127]

theorem parseFrame_ext_header (b1 b2 hi lo : Nat) (rest2 : List Nat)
    (h126 : b2 % 256 &&& 127 = 126) :
    parseFrame (b1 :: b2 :: hi :: lo :: rest2) =
      finishFrame (b1 % 256 &&& 128 != 0) (b1 % 256 &&& 15) (b2 % 256 &&& 128 != 0)
        (((hi % 256) <<< 8) ||| (lo % 256)) rest2 := by
  simp only [parseFrame]
  rw [if_pos h126]

theorem parseFrame_ext_header_short (b1 b2 : Nat) (rest : List Nat)
    (h126 : b2 % 256 &&& 127 = 126) (hshort : rest.length < 2) :
    parseFrame (b1 :: b2 :: rest) = none := by
  rcases rest with _ | ⟨a, _ | ⟨b, r⟩⟩
  · simp only [parseFrame]
    rw [if_pos h126]
  · simp only [parseFrame]
    rw [if_pos h126]
  · exfalso
    simp only [List.length_cons] at hshort
    omega

theorem parseFrame_len127_none (b1 b2 : Nat) (rest : List Nat)
    (h : b2 % 256 &&& 127 = 127) :
    parseFrame (b1 :: b2 :: rest) = none := by
  simp only [parseFrame]
  rw [h]
  norm_num

/-- Running `parseFrame` on any complete serialized frame followed by arbitrary
bytes: the frame parses, the trailing bytes are the new buffer. -/
theorem parseFrame_serialize (b1 : Nat) (mask : Option (Nat × Nat × Nat × Nat))
    (body tail : List Nat) (hb1 : b1 < 256) (hlen : body.length < 65536) :
    parseFrame (serializeFrame b1 mask body ++ tail) =
      some (⟨b1 &&& 128 != 0, b1 &&& 15, mask.isSome, wirePayload mask body⟩, tail) := by
  rcases mask with _ | ⟨k0, k1, k2, k3⟩
  · by_cases hsmall : body.length < 126
    · have hS : serializeFrame b1 none body ++ tail = b1 :: body.length :: (body ++ tail) := by
        simp [serializeFrame, hsmall]
      rw [hS, parseFrame_lit_unmasked b1 body tail hb1 hsmall]
      simp [wirePayload]
    · have hS : serializeFrame b1 none body ++ tail =
          b1 :: 126 :: (body.length / 256) :: (body.length % 256) :: (body ++ tail) := by
        simp [serializeFrame, hsmall]
      rw [hS, parseFrame_ext_unmasked b1 body tail hb1 hlen]
      simp [wirePayload]
  · by_cases hsmall : body.length < 126
    · have hS : serializeFrame b1 (some (k0, k1, k2, k3)) body ++ tail =
          b1 :: (128 + body.length) :: k0 :: k1 :: k2 :: k3 :: (body ++ tail) := by
        simp [serializeFrame, hsmall]
      rw [hS, parseFrame_lit_masked b1 k0 k1 k2 k3 body tail hb1 hsmall]
      simp [wirePayload]
    · have hS : serializeFrame b1 (some (k0, k1, k2, k3)) body ++ tail =
          b1 :: 254 :: (body.length / 256) :: (body.length % 256) ::
            k0 :: k1 :: k2 :: k3 :: (body ++ tail) := by
        simp [serializeFrame, hsmall]
      rw [hS, parseFrame_ext_masked b1 k0 k1 k2 k3 body tail hb1 hlen]
      simp [wirePayload]

/-- Running `parseFrame` on every strict prefix of a serialized frame gives `none`:
each of the decoder's length checks fires before any byte is consumed. -/
theorem parseFrame_strict_prefix_none (b1 : Nat) (mask : Option (Nat × Nat × Nat × Nat))
    (body : List Nat) (k : Nat) (hlen : body.length < 65536)
    (hk : k < (serializeFrame b1 mask body).length) :
    parseFrame ((serializeFrame b1 mask body).take k) = none := by
  rcases mask with _ | ⟨k0, k1, k2, k3⟩
  · by_cases hsmall : body.length < 126
    · have hS : serializeFrame b1 none body = b1 :: body.length :: body := by
        simp [serializeFrame, hsmall]
      rw [hS] at hk ⊢
      simp only [List.length_cons] at hk
      rcases k with _ | _ | j
      · rfl
      · rfl
      · rw [show (b1 :: body.length :: body).take (j + 2)
            = b1 :: body.length :: body.take j from rfl]
        have hb2 : body.length % 256 &&& 127 = body.length := by
          rw [Nat.mod_eq_of_lt (by omega : body.length < 256), land127_eq_mod]
          omega
        have hmk : (body.length % 256 &&& 128 != 0) = false := by
          have h : body.length % 256 &&& 128 = 0 :=
            (land128_eq_zero _ (Nat.mod_lt _ (by norm_num))).mpr (by omega)
          simp [h]
        rw [parseFrame_lit_header _ _ _ (by rw [hb2]; omega) (by rw [hb2]; omega), hmk, hb2]
        exact finishFrame_unmasked_none _ _ _ _ (by simp [List.length_take]; omega)
    · have hS : serializeFrame b1 none body =
          b1 :: 126 :: (body.length / 256) :: (body.length % 256) :: body := by
        simp [serializeFrame, hsmall]
      rw [hS] at hk ⊢
      simp only [List.length_cons] at hk
      have hrec : (((body.length / 256) % 256) <<< 8) ||| ((body.length % 256) % 256)
          = body.length := by
        rw [Nat.mod_eq_of_lt (by omega : body.length / 256 < 256),
          Nat.mod_eq_of_lt (Nat.mod_lt _ (by norm_num : (0:Nat) < 256)),
          shiftLeft8_lor_add _ _ (Nat.mod_lt _ (by norm_num))]
        omega
      rcases k with _ | _ | j
      · rfl
      · rfl
      · rw [show (b1 :: 126 :: (body.length / 256) :: (body.length % 256) :: body).take (j + 2)
            = b1 :: 126 :: ((body.length / 256) :: (body.length % 256) :: body).take j from rfl]
        by_cases hj : j < 2
        · exact parseFrame_ext_header_short _ _ _ (by decide)
            (by simp [List.length_take]; omega)
        · obtain ⟨i, rfl⟩ : ∃ i, j = i + 2 := ⟨j - 2, by omega⟩
          rw [show ((body.length / 256) :: (body.length % 256) :: body).take (i + 2)
              = (body.length / 256) :: (body.length % 256) :: body.take i from rfl]
          rw [parseFrame_ext_header _ _ _ _ _ (by decide), hrec,
            show ((126 : Nat) % 256 &&& 128 != 0) = false by decide]
          exact finishFrame_unmasked_none _ _ _ _ (by simp [List.length_take]; omega)
  · by_cases hsmall : body.length < 126
    · have hS : serializeFrame b1 (some (k0, k1, k2, k3)) body =
          b1 :: (128 + body.length) :: k0 :: k1 :: k2 :: k3 :: body := by
        simp [serializeFrame, hsmall]
      rw [hS] at hk ⊢
      simp only [List.length_cons] at hk
      rcases k with _ | _ | j
      · rfl
      · rfl
      · rw [show (b1 :: (128 + body.length) :: k0 :: k1 :: k2 :: k3 :: body).take (j + 2)
            = b1 :: (128 + body.length) :: (k0 :: k1 :: k2 :: k3 :: body).take j from rfl]
        have hb2 : (128 + body.length) % 256 &&& 127 = body.length := by
          rw [Nat.mod_eq_of_lt (by omega : 128 + body.length < 256), land127_eq_mod]
          omega
        have hmk : ((128 + body.length) % 256 &&& 128 != 0) = true := by
          rw [Nat.mod_eq_of_lt (by omega : 128 + body.length < 256)]
          have h := land128_eq_zero (128 + body.length) (by omega)
          simp only [bne_iff_ne, ne_eq]
          omega
        rw [parseFrame_lit_header _ _ _ (by rw [hb2]; omega) (by rw [hb2]; omega), hmk, hb2]
        by_cases hj : j < 4
        · exact finishFrame_masked_short _ _ _ _ (by simp [List.length_take]; omega)
        · obtain ⟨i, rfl⟩ : ∃ i, j = i + 4 := ⟨j - 4, by omega⟩
          rw [show (k0 :: k1 :: k2 :: k3 :: body).take (i + 4)
              = k0 :: k1 :: k2 :: k3 :: body.take i from rfl]
          exact finishFrame_masked_none _ _ _ _ _ _ _ _ (by simp [List.length_take]; omega)
    · have hS : serializeFrame b1 (some (k0, k1, k2, k3)) body =
          b1 :: 254 :: (body.length / 256) :: (body.length % 256) ::
            k0 :: k1 :: k2 :: k3 :: body := by
        simp [serializeFrame, hsmall]
      rw [hS] at hk ⊢
      simp only [List.length_cons] at hk
      have hrec : (((body.length / 256) % 256) <<< 8) ||| ((body.length % 256) % 256)
          = body.length := by
        rw [Nat.mod_eq_of_lt (by omega : body.length / 256 < 256),
          Nat.mod_eq_of_lt (Nat.mod_lt _ (by norm_num : (0:Nat) < 256)),
          shiftLeft8_lor_add _ _ (Nat.mod_lt _ (by norm_num))]
        omega
      rcases k with _ | _ | j
      · rfl
      · rfl
      · rw [show (b1 :: 254 :: (body.length / 256) :: (body.length % 256) ::
              k0 :: k1 :: k2 :: k3 :: body).take (j + 2)
            = b1 :: 254 :: ((body.length / 256) :: (body.length % 256) ::
              k0 :: k1 :: k2 :: k3 :: body).take j from rfl]
        by_cases hj : j < 2
        · exact parseFrame_ext_header_short _ _ _ (by decide)
            (by simp [List.length_take]; omega)
        · obtain ⟨i, rfl⟩ : ∃ i, j = i + 2 := ⟨j - 2, by omega⟩
          rw [show ((body.length / 256) :: (body.length % 256) ::
                k0 :: k1 :: k2 :: k3 :: body).take (i + 2)
              = (body.length / 256) :: (body.length % 256) ::
                (k0 :: k1 :: k2 :: k3 :: body).take i from rfl]
          rw [parseFrame_ext_header _ _ _ _ _ (by decide), hrec,
            show ((254 : Nat) % 256 &&& 128 != 0) = true by decide]
          by_cases hi4 : i < 4
          · exact finishFrame_masked_short _ _ _ _ (by simp [List.length_take]; omega)
          · obtain ⟨i2, rfl⟩ : ∃ i2, i = i2 + 4 := ⟨i - 4, by omega⟩
            rw [show (k0 :: k1 :: k2 :: k3 :: body).take (i2 + 4)
                = k0 :: k1 :: k2 :: k3 :: body.take i2 from rfl]
            exact finishFrame_masked_none _ _ _ _ _ _ _ _ (by simp [List.length_take]; omega)

/-! Decode/encode corollaries. -/

theorem encode_eq_serialize (payload : List Nat) (hlen : payload.length < 65536) :
    encodeWebSocketFrame payload = serializeFrame 0x81 none payload := by
  by_cases h : payload.length < 126
  · simp [encodeWebSocketFrame, serializeFrame, h]
  · have e1 : (payload.length >>> 8) % 256 = payload.length / 256 := by
      rw [Nat.shiftRight_eq_div_pow, show (2 : Nat) ^ 8 = 256 from by norm_num]
      omega
    have e2 : payload.length &&& 255 = payload.length % 256 := land255_eq_mod _
    simp [encodeWebSocketFrame, serializeFrame, h, e1, e2]

theorem map_mod_eq_self (l : List Nat) (h : ∀ b ∈ l, b < 256) : l.map (· % 256) = l := by
  have e : l.map (· % 256) = l.map id :=
    List.map_congr_left fun b hb => Nat.mod_eq_of_lt (h b hb)
  rw [e, List.map_id]

theorem decodeWebSocketFrame_encode (payload : List Nat) (hlen : payload.length ≤ 65535)
    (hbytes : ∀ b ∈ payload, b < 256) :
    decodeWebSocketFrame (encodeWebSocketFrame payload) = (payload, []) := by
  have happ : serializeFrame 0x81 none payload = serializeFrame 0x81 none payload ++ [] := by
    simp
  rw [encode_eq_serialize payload (by omega), decodeWebSocketFrame, happ,
    parseFrame_serialize 0x81 none payload [] (by norm_num) (by omega)]
  simp [wirePayload, map_mod_eq_self payload hbytes,
    show (129 : Nat) &&& 15 = 1 from by decide,
    show ((129 : Nat) &&& 128 != 0) = true from by decide]

theorem decode_serialize_nontext (b1 : Nat) (mask : Option (Nat × Nat × Nat × Nat))
    (body tail : List Nat) (hb1 : b1 < 256) (hlen : body.length < 65536)
    (hop : ¬ b1 &&& 15 = 1) :
    decodeWebSocketFrame (serializeFrame b1 mask body ++ tail) = ([], tail) := by
  rw [decodeWebSocketFrame, parseFrame_serialize b1 mask body tail hb1 hlen]
  simp [hop]

/-! Slot-scan lemmas for `getFreeWallboxSlot`. -/

theorem getFreeWallboxSlotGo_all_active (l : List WallboxConnection) (s : Nat)
    (h : ∀ c ∈ l, c.active = true) : getFreeWallboxSlotGo l s = -1 := by
  induction l generalizing s with
  | nil => rfl
  | cons c rest ih =>
      simp only [getFreeWallboxSlotGo]
      rw [if_pos (h c (List.mem_cons_self c rest))]
      exact ih _ fun c' hc' => h c' (List.mem_cons_of_mem _ hc')

theorem getFreeWallboxSlotGo_least (l : List WallboxConnection) (s j : Nat)
    (hj : j < l.length) (hfree : (l.getD j default).active = false)
    (hbusy : ∀ i < j, (l.getD i default).active = true) :
    getFreeWallboxSlotGo l s = ((s + j : Nat) : Int) := by
  induction l generalizing s j with
  | nil => simp at hj
  | cons c rest ih =>
      rcases j with _ | j'
      · simp only [List.getD_cons_zero] at hfree
        simp only [getFreeWallboxSlotGo]
        rw [if_neg (by simp [hfree])]
        simp
      · have hc : c.active = true := by
          have h0 := hbusy 0 (by omega)
          simpa using h0
        simp only [getFreeWallboxSlotGo]
        rw [if_pos hc]
        have hrec := ih (s + 1) j' (by simpa using hj) (by simpa using hfree)
          (fun i hi => by have hb := hbusy (i + 1) (by omega); simpa using hb)
        rw [hrec, show s + 1 + j' = s + (j' + 1) from by omega]

/-! A `filterMap` over an if-then-else is a `filter` then `map`. -/

theorem filterMap_ite_eq_map_filter {α β : Type} (l : List α) (p : α → Prop)
    [DecidablePred p] (f : α → β) :
    (l.filterMap fun a => if p a then some (f a) else none)
      = (l.filter fun a => decide (p a)).map f := by
  induction l with
  | nil => rfl
  | cons a t ih =>
      by_cases h : p a
      · simp [List.filterMap_cons, List.filter_cons, h, ih]
      · simp [List.filterMap_cons, List.filter_cons, h, ih]

/-! Backoff-gating lemmas for `connectBackend`. -/

theorem attemptTimes_lower_bound (ts : List Nat) (st : BackendState)
    (hconn : st.backendConnected = false) :
    ∀ a ∈ attemptTimes st ts, st.lastBackendAttempt + 5000 ≤ a := by
  induction ts generalizing st with
  | nil => simp [attemptTimes]
  | cons t ts ih =>
      intro a ha
      by_cases hlt : t - st.lastBackendAttempt < 5000
      · have hcb : connectBackend st t false = (st, false) := by
          simp [connectBackend, hconn, hlt]
        simp only [attemptTimes, hcb] at ha
        simp only [Bool.false_eq_true, if_false] at ha
        exact ih st hconn a ha
      · have hcb : connectBackend st t false =
            ({ st with lastBackendAttempt := t }, true) := by
          simp [connectBackend, hconn, hlt]
        simp only [attemptTimes, hcb, if_true] at ha
        rcases List.mem_cons.mp ha with rfl | ha'
        · omega
        · have hb := ih { st with lastBackendAttempt := t } (by simp [hconn]) a ha'
          simp only at hb
          omega

theorem attemptTimes_chain (ts : List Nat) (st : BackendState)
    (hconn : st.backendConnected = false) :
    List.Chain' (fun a b => a + 5000 ≤ b) (attemptTimes st ts) := by
  induction ts generalizing st with
  | nil => simp [attemptTimes]
  | cons t ts ih =>
      by_cases hlt : t - st.lastBackendAttempt < 5000
      · have hcb : connectBackend st t false = (st, false) := by
          simp [connectBackend, hconn, hlt]
        simp only [attemptTimes, hcb, Bool.false_eq_true, if_false]
        exact ih st hconn
      · have hcb : connectBackend st t false =
            ({ st with lastBackendAttempt := t }, true) := by
          simp [connectBackend, hconn, hlt]
        simp only [attemptTimes, hcb, if_true]
        refine List.chain'_cons'.mpr ⟨?_, ih _ (by simp [hconn])⟩
        intro y hy
        have hb := attemptTimes_lower_bound ts { st with lastBackendAttempt := t }
          (by simp [hconn]) y (List.mem_of_mem_head? hy)
        simpa using hb

theorem decide_and_bool : ∀ a b : Bool, (decide (a = true ∧ b = true)) = (a && b) := by decide

/-! The frozen claims. -/

/-- C1: the claim asserts the 101 response carries
`base64(SHA-1(key + GUID))` for every key.  The code instead hardcodes the
token that is correct only for the RFC 6455 sample key: the same fixed
response is sent for any other key, whose correct accept token differs. -/
theorem handshake_accept_token_hardcoded :
    computeAcceptToken "dGhlIHNhbXBsZSBub25jZQ==" = "s3pPLMBiTxaQ9kYGzzhZRbK+xOo=" ∧
    handleWallboxHandshake sampleUpgradeRequest = some wsHandshakeResponse ∧
    handleWallboxHandshake otherKeyUpgradeRequest = some wsHandshakeResponse ∧
    computeAcceptToken "AAAAAAAAAAAAAAAAAAAAAA==" ≠ "s3pPLMBiTxaQ9kYGzzhZRbK+xOo=" :=
  ⟨by decide, by decide, by decide, by decide⟩

/-- C2: encode→decode round trip: for any frame with opcode Text, FIN set,
payload of length 0-65535 and either value of the mask bit, decoding the
bytes produced by encoding yields the frame back — same payload bytes,
opcode and FIN — with all encoded bytes consumed. -/
theorem encode_decode_roundtrip (f : WSFrame) (hop : f.opcode = 1) (hfin : f.fin = true)
    (hlen : f.payload.length ≤ 65535) (hbytes : ∀ b ∈ f.payload, b < 256) :
    ∃ g : WSFrame,
      parseFrame (encodeWebSocketFrame f.payload) = some (g, []) ∧
      g.payload = f.payload ∧ g.opcode = f.opcode ∧ g.fin = f.fin ∧
      decodeWebSocketFrame (encodeWebSocketFrame f.payload) = (f.payload, []) := by
  have hser := parseFrame_serialize 0x81 none f.payload [] (by norm_num) (by omega)
  rw [List.append_nil] at hser
  refine ⟨⟨(0x81 : Nat) &&& 128 != 0, (0x81 : Nat) &&& 15, false, wirePayload none f.payload⟩,
    ?_, ?_, ?_, ?_, decodeWebSocketFrame_encode f.payload hlen hbytes⟩
  · rw [encode_eq_serialize f.payload (by omega)]
    exact hser
  · show wirePayload none f.payload = f.payload
    simp [wirePayload, map_mod_eq_self f.payload hbytes]
  · show (0x81 : Nat) &&& 15 = f.opcode
    rw [hop]
    decide
  · show ((0x81 : Nat) &&& 128 != 0) = f.fin
    rw [hfin]
    decide

theorem encode_decode_roundtrip_witness :
    ∃ g : WSFrame,
      parseFrame (encodeWebSocketFrame [104, 105]) = some (g, []) ∧
      g.payload = [104, 105] ∧ g.opcode = 1 ∧ g.fin = true ∧
      decodeWebSocketFrame (encodeWebSocketFrame [104, 105]) = ([104, 105], []) :=
  encode_decode_roundtrip ⟨true, 1, true, [104, 105]⟩ rfl rfl (by decide) (by decide)

/-- C3 counterexample: on a buffer whose second byte declares the 7-bit
length 127 (here with the mask bit set and plenty of following bytes) the
decoder returns the empty message with the buffer unchanged — exactly the
same observable outcome as a truncated two-byte buffer, not a distinct
ProtocolError. -/
theorem len127_counterexample :
    decodeWebSocketFrame [0x81, 0xFF, 0, 0, 0, 0, 0, 0, 0, 5, 1, 2, 3, 4, 5] =
      ([], [0x81, 0xFF, 0, 0, 0, 0, 0, 0, 0, 5, 1, 2, 3, 4, 5]) ∧
    decodeWebSocketFrame [0x81] = ([], [0x81]) := by decide

/-- C3 amended: for every buffer whose second byte declares the 7-bit length
127 (either mask bit, any following bytes) the decoder returns no message
and consumes nothing — the frame is silently retained in the buffer, an
outcome indistinguishable from Incomplete; no 64-bit-length frame is ever
parsed or truncated. -/
theorem len127_silently_retained (b1 b2 : Nat) (rest : List Nat)
    (h : b2 % 256 &&& 127 = 127) :
    decodeWebSocketFrame (b1 :: b2 :: rest) = ([], b1 :: b2 :: rest) := by
  rw [decodeWebSocketFrame, parseFrame_len127_none b1 b2 rest h]

theorem len127_silently_retained_witness :
    (0x7F : Nat) % 256 &&& 127 = 127 ∧
    decodeWebSocketFrame [0x81, 0x7F, 9, 9, 9] = ([], [0x81, 0x7F, 9, 9, 9]) :=
  ⟨by decide, len127_silently_retained 0x81 0x7F [9, 9, 9] (by decide)⟩

/-- C4: on every strict prefix of a well-formed frame the decoder returns
the empty message and leaves the buffer unchanged, consuming nothing; in
particular, feeding a frame one byte at a time yields this Incomplete
outcome at every partial step and never an error or a partial consume. -/
theorem decode_strict_prefix_incomplete (b1 : Nat) (mask : Option (Nat × Nat × Nat × Nat))
    (body : List Nat) (k : Nat) (hlen : body.length < 65536)
    (hk : k < (serializeFrame b1 mask body).length) :
    decodeWebSocketFrame ((serializeFrame b1 mask body).take k) =
      ([], (serializeFrame b1 mask body).take k) := by
  rw [decodeWebSocketFrame, parseFrame_strict_prefix_none b1 mask body k hlen hk]

theorem decode_strict_prefix_incomplete_witness :
    (5 < (serializeFrame 0x81 (some (1, 2, 3, 4)) [7, 8]).length) ∧
    decodeWebSocketFrame ((serializeFrame 0x81 (some (1, 2, 3, 4)) [7, 8]).take 5) =
      ([], (serializeFrame 0x81 (some (1, 2, 3, 4)) [7, 8]).take 5) :=
  ⟨by decide, decode_strict_prefix_incomplete 0x81 (some (1, 2, 3, 4)) [7, 8] 5
    (by decide) (by decide)⟩

/-- C5 amended: under the broadcast policy, one complete Text frame with a
NONEMPTY payload decoded from the backend produces exactly one write (of the
re-encoded frame) to every slot that is active with its handshake done, no
write to any other slot, and as many writes as there are open slots; the
frame is fully consumed.  (An empty-payload Text frame — see the
counterexample — produces no writes at all.) -/
theorem broadcast_fanout (clients : List WallboxConnection) (payload : List Nat)
    (hne : payload ≠ []) (hlen : payload.length ≤ 65535)
    (hbytes : ∀ b ∈ payload, b < 256) :
    (handleBackendForward clients (encodeWebSocketFrame payload)).1 = [] ∧
    (∀ i < MAX_WALLBOX_CLIENTS,
      (getClient clients i).active = true → (getClient clients i).wsHandshakeDone = true →
        (i, encodeWebSocketFrame payload) ∈
          (handleBackendForward clients (encodeWebSocketFrame payload)).2) ∧
    (∀ i w, (i, w) ∈ (handleBackendForward clients (encodeWebSocketFrame payload)).2 →
      (getClient clients i).active = true ∧ (getClient clients i).wsHandshakeDone = true ∧
        w = encodeWebSocketFrame payload) ∧
    (handleBackendForward clients (encodeWebSocketFrame payload)).2.length =
      ((List.range MAX_WALLBOX_CLIENTS).filter fun i =>
        (getClient clients i).active && (getClient clients i).wsHandshakeDone).length := by
  have hdec := decodeWebSocketFrame_encode payload hlen hbytes
  have hpos : 0 < payload.length := List.length_pos.mpr hne
  have hforward : handleBackendForward clients (encodeWebSocketFrame payload) =
      ([], ((List.range MAX_WALLBOX_CLIENTS).filter fun i =>
          decide ((getClient clients i).active = true ∧
            (getClient clients i).wsHandshakeDone = true)).map
        fun i => (i, encodeWebSocketFrame payload)) := by
    simp only [handleBackendForward, hdec]
    rw [if_pos hpos, filterMap_ite_eq_map_filter]
  rw [hforward]
  refine ⟨rfl, ?_, ?_, ?_⟩
  · intro i hi hact hhs
    simp only [List.mem_map, List.mem_filter, List.mem_range]
    exact ⟨i, ⟨⟨hi, by simp [hact, hhs]⟩, rfl⟩⟩
  · intro i w hw
    simp only [List.mem_map, List.mem_filter, List.mem_range] at hw
    obtain ⟨a, ⟨⟨ha5, hcond⟩, heq⟩⟩ := hw
    cases heq
    simp only [decide_eq_true_eq] at hcond
    exact ⟨hcond.1, hcond.2, rfl⟩
  · rw [List.length_map]
    congr 1
    apply List.filter_congr
    intro x hx
    exact decide_and_bool (getClient clients x).active (getClient clients x).wsHandshakeDone

/-- C5 counterexample: with three open sessions, a single complete
backend-originated Text frame with empty payload is decoded (consumed) yet
produces zero outbound writes, not three. -/
theorem broadcast_empty_text_counterexample :
    parseFrame [0x81, 0] = some (⟨true, 1, false, []⟩, []) ∧
    handleBackendForward threeOpenClients [0x81, 0] = ([], []) ∧
    ((List.range MAX_WALLBOX_CLIENTS).filter fun i =>
      (getClient threeOpenClients i).active &&
        (getClient threeOpenClients i).wsHandshakeDone).length = 3 := by
  decide

theorem broadcast_fanout_witness :
    (handleBackendForward threeOpenClients (encodeWebSocketFrame [104, 105])).2.length = 3 := by
  have h := broadcast_fanout threeOpenClients [104, 105] (by decide) (by decide) (by decide)
  rw [h.2.2.2]
  decide

/-- C6: whenever a slot is free, a newly accepted transport is assigned the
lowest free slot index, whose session state is initialized; with every slot
active the transport is closed at once (`newClient.stop()`), no handshake is
ever attempted for it, and the slot table is unchanged. -/
theorem admission_control (clients : List WallboxConnection)
    (hN : clients.length = MAX_WALLBOX_CLIENTS) :
    ((∀ i < MAX_WALLBOX_CLIENTS, (getClient clients i).active = true) →
      acceptWallboxConnections clients = (clients, AdmitResult.rejected)) ∧
    (∀ j < MAX_WALLBOX_CLIENTS, (getClient clients j).active = false →
      (∀ i < j, (getClient clients i).active = true) →
      acceptWallboxConnections clients =
        (clients.set j ⟨true, false, []⟩, AdmitResult.admitted j)) := by
  constructor
  · intro hall
    have hfree : getFreeWallboxSlot clients = -1 := by
      apply getFreeWallboxSlotGo_all_active
      intro c hc
      obtain ⟨i, hi, hEq⟩ := List.mem_iff_getElem.mp hc
      have hact := hall i (by rw [hN] at hi; exact hi)
      have h2 : getClient clients i = c := by
        rw [getClient, List.getD_eq_getElem _ _ hi, hEq]
      rw [← h2]
      exact hact
    simp [acceptWallboxConnections, hfree]
  · intro j hj hfree hbusy
    have hj' : j < clients.length := by rw [hN]; exact hj
    have hlow := getFreeWallboxSlotGo_least clients 0 j hj' hfree hbusy
    have hfree' : getFreeWallboxSlot clients = (j : Int) := by
      rw [getFreeWallboxSlot, hlow]
      norm_num
    simp [acceptWallboxConnections, hfree']

theorem admission_control_witness :
    acceptWallboxConnections fullClients = (fullClients, AdmitResult.rejected) ∧
    acceptWallboxConnections threeOpenClients =
      (threeOpenClients.set 3 ⟨true, false, []⟩, AdmitResult.admitted 3) :=
  ⟨(admission_control fullClients (by decide)).1 (by decide),
    (admission_control threeOpenClients (by decide)).2 3 (by decide) (by decide)
      (by decide)⟩

/-- C7: per backend link, a connect request while fewer than 5000 ms have
passed since the last recorded attempt is a strict no-op; a request at or
after the interval performs an actual attempt and re-stamps
`lastBackendAttempt`; and along any sequence of failing requests any two
consecutive actual attempts are at least one full interval apart — so two
failed requests within one interval cause one real attempt and a request
after the interval causes a new one. -/
theorem backend_backoff_gating (st : BackendState) (now : Nat) (ok : Bool) (ts : List Nat)
    (hconn : st.backendConnected = false) :
    (now - st.lastBackendAttempt < 5000 → connectBackend st now ok = (st, false)) ∧
    (5000 ≤ now - st.lastBackendAttempt →
      (connectBackend st now ok).2 = true ∧
      (connectBackend st now ok).1.lastBackendAttempt = now) ∧
    List.Chain' (fun a b => a + 5000 ≤ b) (attemptTimes st ts) := by
  refine ⟨?_, ?_, attemptTimes_chain ts st hconn⟩
  · intro h
    simp [connectBackend, hconn, h]
  · intro h
    have h' : ¬ now - st.lastBackendAttempt < 5000 := by omega
    cases ok <;> simp [connectBackend, hconn, h']

theorem backend_backoff_gating_witness :
    attemptTimes ⟨false, 0⟩ [5000, 8000, 11000] = [5000, 11000] ∧
    connectBackend ⟨false, 0⟩ 3000 false = (⟨false, 0⟩, false) ∧
    List.Chain' (fun a b => a + 5000 ≤ b) (attemptTimes ⟨false, 0⟩ [5000, 8000, 11000]) := by
  have h := backend_backoff_gating ⟨false, 0⟩ 3000 false [5000, 8000, 11000] rfl
  exact ⟨by decide, h.1 (by decide), h.2.2⟩

/-- C8 amended: a complete Ping frame (opcode 0x9) arriving on an open
session or on the backend link is consumed from the buffer and discarded:
the session handler writes nothing back to the session peer and nothing to
the backend, and the backend handler writes nothing to any session — no
Pong is ever produced. -/
theorem ping_consumed_no_pong (c : WallboxConnection) (bc bh : Bool)
    (clients : List WallboxConnection) (b1 : Nat) (mask : Option (Nat × Nat × Nat × Nat))
    (body tail : List Nat) (hb1 : b1 < 256) (hop : b1 &&& 15 = 9)
    (hlen : body.length < 65536) (hbuf : c.buffer = serializeFrame b1 mask body ++ tail) :
    handleWallboxFrameStep c bc bh = ({ c with buffer := tail }, [], []) ∧
    handleBackendForward clients (serializeFrame b1 mask body ++ tail) = (tail, []) := by
  have hdec : decodeWebSocketFrame (serializeFrame b1 mask body ++ tail) = ([], tail) :=
    decode_serialize_nontext b1 mask body tail hb1 hlen (by omega)
  constructor
  · simp [handleWallboxFrameStep, hbuf, hdec]
  · simp [handleBackendForward, hdec]

theorem ping_consumed_no_pong_witness :
    handleWallboxFrameStep
        ⟨true, true, serializeFrame 0x89 (some (1, 2, 3, 4)) [0x42] ++ [0x81, 1, 65]⟩
        true true =
      (⟨true, true, [0x81, 1, 65]⟩, [], []) ∧
    handleBackendForward threeOpenClients
        (serializeFrame 0x89 (some (1, 2, 3, 4)) [0x42] ++ [0x81, 1, 65]) =
      ([0x81, 1, 65], []) :=
  ping_consumed_no_pong
    ⟨true, true, serializeFrame 0x89 (some (1, 2, 3, 4)) [0x42] ++ [0x81, 1, 65]⟩
    true true threeOpenClients 0x89 (some (1, 2, 3, 4)) [0x42] [0x81, 1, 65]
    (by decide) (by decide) (by decide) rfl

/-- C8 counterexample: a complete Ping frame is received on an open session
while the backend link is open; the frame is consumed, but the write-back
list for that session peer is empty — no Pong frame (which would be
`[0x8A, 1, 0x42]`) is written to it, and nothing is written anywhere else. -/
theorem ping_no_pong_counterexample :
    parseFrame [0x89, 1, 0x42] = some (⟨true, 9, false, [0x42]⟩, []) ∧
    handleWallboxFrameStep ⟨true, true, [0x89, 1, 0x42]⟩ true true =
      (⟨true, true, []⟩, [], []) ∧
    handleBackendForward threeOpenClients [0x89, 1, 0x42] = ([], []) := by
  decide

/-- C9: decoding a complete masked frame XORs payload byte `i` with
`mask[i % 4]` of the 4-byte key following the length field. -/
theorem masked_decode_unmasks (b1 k0 k1 k2 k3 : Nat) (body : List Nat)
    (hb1 : b1 < 256) (hk0 : k0 < 256) (hk1 : k1 < 256) (hk2 : k2 < 256) (hk3 : k3 < 256)
    (hlen : body.length < 126) :
    parseFrame (b1 :: (128 + body.length) :: k0 :: k1 :: k2 :: k3 :: body) =
      some (⟨b1 &&& 128 != 0, b1 &&& 15, true,
        (List.range body.length).map fun i =>
          (body.getD i 0 % 256) ^^^ ([k0, k1, k2, k3].getD (i % 4) 0)⟩, []) := by
  have h := parseFrame_lit_masked b1 k0 k1 k2 k3 body [] hb1 hlen
  rw [List.append_nil] at h
  rw [h]
  simp only [Nat.mod_eq_of_lt hk0, Nat.mod_eq_of_lt hk1, Nat.mod_eq_of_lt hk2,
    Nat.mod_eq_of_lt hk3]

theorem masked_decode_unmasks_witness :
    parseFrame [0x81, 0x84, 0x12, 0x34, 0x56, 0x78, 0x00, 0x01, 0x02, 0x03] =
      some (⟨true, 1, true, [0x12, 0x35, 0x54, 0x7B]⟩, []) ∧
    decodeWebSocketFrame [0x81, 0x84, 0x12, 0x34, 0x56, 0x78, 0x00, 0x01, 0x02, 0x03] =
      ([0x12, 0x35, 0x54, 0x7B], []) := by
  constructor
  · have h := masked_decode_unmasks 0x81 0x12 0x34 0x56 0x78 [0x00, 0x01, 0x02, 0x03]
      (by decide) (by decide) (by decide) (by decide) (by decide) (by decide)
    exact h.trans (by decide)
  · decide

/-- C10: when the buffer begins with one complete frame, the decoder removes
exactly that frame's bytes and returns every byte after it unchanged and in
order, so a queued second frame is preserved for the next call. -/
theorem decode_consumes_exactly_one_frame (b1 : Nat)
    (mask : Option (Nat × Nat × Nat × Nat)) (body tail : List Nat)
    (hb1 : b1 < 256) (hlen : body.length < 65536) :
    ∃ msg, decodeWebSocketFrame (serializeFrame b1 mask body ++ tail) = (msg, tail) := by
  refine ⟨if b1 &&& 15 = 1 ∧ (b1 &&& 128 != 0) = true then wirePayload mask body else [], ?_⟩
  rw [decodeWebSocketFrame, parseFrame_serialize b1 mask body tail hb1 hlen]

theorem decode_consumes_exactly_one_frame_witness :
    ∃ msg, decodeWebSocketFrame (serializeFrame 0x81 none [65] ++ [0x81, 1, 66]) =
      (msg, [0x81, 1, 66]) :=
  decode_consumes_exactly_one_frame 0x81 none [65] [0x81, 1, 66] (by decide) (by decide)

end NiclaGateway
